import Mathlib

/-!
Shallow embedding of the `location_error` Rust library (`src/lib.rs`).

The library pairs an opaque `anyhow::Error` with a vector of call-site
`Location`s.  Because `#[track_caller]` supplies the caller's location at
run time, every operation that captures a call site is embedded as a
function taking that `Location` explicitly.

`anyhow::Error` (an external collaborator) is embedded as an inductive
type: a root failure characterised by its rendered texts, a
`DisplayString` root (the reconstruction target of `deserialize_source`),
and stacked context layers added by `context`.  The two renderings the
library observes are embedded from `anyhow`/`std::fmt` semantics:
`debugAlt` is `format!("{value:#?}")` (alternate Debug, used by
`serialize_source`) and `debugNonAlt` is `format!("{value:?}")` (used by
the derived `Debug` of `LocationError`, to which `Display` delegates).
-/

namespace LocErr

/-- Text is newline-free (helper predicate over the embedded strings). -/
abbrev noNL (s : String) : Prop := '\n' ∉ s.data

/-- Embeds `char::escape_debug` as used by `str`/`anyhow::fmt::Quoted` for
the escapes the library's texts can contain (tab, carriage return,
newline, backslash, double quote); other characters pass through. -/
def escapeDebugChar (c : Char) : List Char :=
  if c = '\t' then ['\\', 't']
  else if c = '\r' then ['\\', 'r']
  else if c = '\n' then ['\\', 'n']
  else if c = '\\' then ['\\', '\\']
  else if c = '"' then ['\\', '"']
  else [c]

/-- Embeds `str::escape_debug` (character-wise). -/
def escapeDebug (s : String) : String :=
  ⟨s.data.flatMap escapeDebugChar⟩

/-- Embeds the Debug rendering of a `&str`: the escaped text in quotes. -/
def quoteDebug (s : String) : String :=
  "\"" ++ escapeDebug s ++ "\""

/-- Embeds `std::fmt`'s `PadAdapter` line padding inside a pretty
`debug_struct` field: four spaces are inserted after every newline that
is followed by further content. -/
def padContChars : List Char → List Char
  | [] => []
  | c :: rest =>
    if c = '\n' then
      if rest = [] then ['\n']
      else '\n' :: ' ' :: ' ' :: ' ' :: ' ' :: padContChars rest
    else c :: padContChars rest

/-- One field of a pretty (`{:#?}`) `debug_struct`: the whole field is
written through the pad adapter, starting on a fresh line. -/
def padFld (content : String) : String :=
  ⟨' ' :: ' ' :: ' ' :: ' ' :: padContChars content.data⟩

/-- Splits a character list at newline characters. -/
def splitNL : List Char → List (List Char)
  | [] => [[]]
  | c :: rest =>
    if c = '\n' then [] :: splitNL rest
    else
      match splitNL rest with
      | [] => [[c]]
      | l :: ls => (c :: l) :: ls

/-- Joins strings with a separator between consecutive elements. -/
def joinSep (sep : String) : List String → String
  | [] => ""
  | [x] => x
  | x :: xs => x ++ sep ++ joinSep sep xs

/-- Embeds `{: >5}`: decimal digits right-aligned to width five. -/
def padNum (n : Nat) : String :=
  (⟨List.replicate (5 - (toString n).length) ' '⟩ : String) ++ toString n

/-- First-line pad of `anyhow`'s `Indented` writer: `"{: >5}: "` when the
cause is numbered, four spaces otherwise. -/
def firstLinePad : Option Nat → String
  | some n => padNum n ++ ": "
  | none => "    "

/-- Continuation-line pad of `anyhow`'s `Indented` writer. -/
def contLinePad : Option Nat → String
  | some _ => "       "
  | none => "    "

/-- Embeds `anyhow`'s `Indented` writer: each line of the text is padded,
the first line possibly with a cause number. -/
def indentedRender (num : Option Nat) (s : String) : String :=
  firstLinePad num ++
    joinSep ("\n" ++ contLinePad num) ((splitNL s.data).map fun l => (⟨l⟩ : String))

/-- Embeds `anyhow::Error` as the library observes it: a root failure
carrying its alternate-Debug text, Display text and the Display texts of
its own cause chain; a `DisplayString` root (produced by
`deserialize_source`); or a context layer added by `Error::context`. -/
inductive AnyhowError where
  | typed (dbgAlt display : String) (causes : List String)
  | displayString (text : String)
  | withContext (msg : String) (inner : AnyhowError)
deriving DecidableEq

/-- Display texts of the full context-and-cause chain, outermost first
(`anyhow`: the outermost error's Display, then each `source()` in turn). -/
def chainDisplays : AnyhowError → List String
  | .typed _ d causes => d :: causes
  | .displayString s => [s]
  | .withContext m inner => m :: chainDisplays inner

/-- Messages of the context layers only, outermost first. -/
def contextMsgs : AnyhowError → List String
  | .withContext m inner => m :: contextMsgs inner
  | _ => []

/-- Alternate-Debug text of the root failure under all context layers. -/
def rootDbg : AnyhowError → String
  | .typed d _ _ => d
  | .displayString s => s
  | .withContext _ inner => rootDbg inner

/-- Display text of the outermost layer (what `format!("{}")` prints). -/
def displayText : AnyhowError → String
  | .typed _ d _ => d
  | .displayString s => s
  | .withContext m _ => m

/-- Embeds `format!("{value:#?}")` on `anyhow::Error`: with the alternate
flag, `anyhow` delegates to the Debug of the outermost concrete error.
For a context layer that is `ContextError`, whose Debug is a
`debug_struct` named `Error` with the quoted context and the recursively
formatted source; for `DisplayString` it is the custom Debug writing the
text verbatim; for a root failure it is that failure's own Debug text. -/
def debugAlt : AnyhowError → String
  | .typed d _ _ => d
  | .displayString s => s
  | .withContext m inner =>
    "Error \x7b\n" ++ padFld ("context: \"" ++ escapeDebug m ++ "\",\n")
      ++ padFld ("source: " ++ debugAlt inner ++ ",\n") ++ "\x7d"

/-- Tells whether the cause chain has at least two entries
(`cause.source().is_some()` in `anyhow`'s Debug). -/
def multipleCauses : List String → Bool
  | _ :: _ :: _ => true
  | _ => false

/-- Embeds the cause loop of `anyhow`'s non-alternate Debug: for each
cause, a newline then the indented (and, when `multiple`, numbered)
Display text, numbering from `n`. -/
def causeEntries (multiple : Bool) (n : Nat) : List String → String
  | [] => ""
  | m :: rest =>
    "\n" ++ indentedRender (if multiple then some n else none) m
      ++ causeEntries multiple (n + 1) rest

/-- Embeds `format!("{value:?}")` on `anyhow::Error`: the outermost
Display text and a newline, then, when causes exist, a blank line,
`Caused by:` and the indented cause list. -/
def debugNonAlt (e : AnyhowError) : String :=
  match chainDisplays e with
  | [] => ""
  | h :: t =>
    h ++ "\n" ++
      (if t = [] then "" else "\nCaused by:" ++ causeEntries (multipleCauses t) 0 t)

/-- Embeds `Location` (`file: Cow<str>, line: u32, col: u32`). -/
structure Location where
  file : String
  line : Nat
  col : Nat
deriving DecidableEq

/-- Embeds the custom `Debug`/`Display` of `Location`:
`"{}:{}:{}"` over file, line, col. -/
def Location.render (l : Location) : String :=
  l.file ++ ":" ++ toString l.line ++ ":" ++ toString l.col

/-- Three-way comparison on `Nat` (embeds `Ord` on the integer fields). -/
def natCmp (a b : Nat) : Ordering :=
  if a < b then .lt else if b < a then .gt else .eq

/-- Three-way comparison on characters by code point (UTF-8 byte order of
Rust `str` comparison agrees with code-point order). -/
def charCmp (a b : Char) : Ordering :=
  natCmp a.toNat b.toNat

/-- Lexicographic three-way comparison of character lists (embeds `Ord`
on `str`). -/
def charsCmp : List Char → List Char → Ordering
  | [], [] => .eq
  | [], _ :: _ => .lt
  | _ :: _, [] => .gt
  | a :: as, b :: bs => (charCmp a b).then (charsCmp as bs)

/-- String comparison. -/
def strCmp (a b : String) : Ordering :=
  charsCmp a.data b.data

/-- Embeds the derived `Ord` of `Location`: fields compared in
declaration order, `file` then `line` then `col`. -/
def Location.cmp (a b : Location) : Ordering :=
  (strCmp a.file b.file).then ((natCmp a.line b.line).then (natCmp a.col b.col))

/-- Lexicographic strict order on `Location` by (file, line, column),
stated directly. -/
def Location.lexLt (a b : Location) : Prop :=
  strCmp a.file b.file = .lt ∨
    (a.file = b.file ∧ (a.line < b.line ∨ (a.line = b.line ∧ a.col < b.col)))

/-- Embeds `LocationError`: the opaque failure plus the backtrace. -/
structure LocationError where
  source : AnyhowError
  backtrace : List Location
deriving DecidableEq

/-- Embeds `LocationError::add_location`: pushes the caller's location at
the end of the backtrace and returns the updated value. -/
def LocationError.add_location (e : LocationError) (caller : Location) : LocationError :=
  LocationError.mk e.source (e.backtrace ++ [caller])

/-- Embeds `LocationError::context`: replaces `source` with
`source.context(context)`, one more (outermost) context layer. -/
def LocationError.context (e : LocationError) (ctx : String) : LocationError :=
  LocationError.mk (.withContext ctx e.source) e.backtrace

/-- Embeds `LocationError::new`: the converted failure value together
with a one-element backtrace holding the caller's location. -/
def LocationError.new (value : AnyhowError) (caller : Location) : LocationError :=
  LocationError.mk value [caller]

/-- Embeds Rust `Result`. -/
inductive RustResult (T E : Type) where
  | ok (val : T)
  | err (e : E)
deriving DecidableEq

/-- Embeds `LocationResult<T>`. -/
abbrev LocationResult (T : Type) := RustResult T LocationError

/-- Embeds `AddLocation::loc` for `Result<T, LocationError>`: on the
`Err` branch, `add_location` with this call site; `Ok` passes through. -/
def AddLocation.loc {T : Type} (r : LocationResult T) (caller : Location) : LocationResult T :=
  match r with
  | .ok v => .ok v
  | .err e => .err (e.add_location caller)

/-- Embeds `AddLocation::context` for `Result<T, LocationError>`. -/
def AddLocation.context {T : Type} (r : LocationResult T) (ctx : String) : LocationResult T :=
  match r with
  | .ok v => .ok v
  | .err e => .err (e.context ctx)

/-- Embeds `ToLocation::loc` for `Result<T, E>`; the generic failure is
taken already converted through `anyhow::Error: From<E>`. -/
def ToLocation.resultLoc {T : Type} (r : RustResult T AnyhowError) (caller : Location) :
    LocationResult T :=
  match r with
  | .ok v => .ok v
  | .err e => .err (LocationError.new e caller)

/-- Embeds `ToLocation::no_loc` for `Result<T, E>`: same conversion with
an empty backtrace. -/
def ToLocation.resultNoLoc {T : Type} (r : RustResult T AnyhowError) : LocationResult T :=
  match r with
  | .ok v => .ok v
  | .err e => .err (LocationError.mk e [])

/-- Embeds the constant `OPTION_ERR`. -/
def OPTION_ERR : String := "Option was None"

/-- Embeds `anyhow!(OPTION_ERR)`: a message error over a `&str`, whose
Display is the text and whose Debug is the quoted text, with no causes. -/
def optionErrSource : AnyhowError :=
  .typed (quoteDebug OPTION_ERR) OPTION_ERR []

/-- Embeds `ToLocation::loc` for `Option<T>`. -/
def ToLocation.optionLoc {T : Type} (o : Option T) (caller : Location) : LocationResult T :=
  match o with
  | some v => .ok v
  | none => .err (LocationError.new optionErrSource caller)

/-- Embeds `ToLocation::no_loc` for `Option<T>`. -/
def ToLocation.optionNoLoc {T : Type} (o : Option T) : LocationResult T :=
  match o with
  | some v => .ok v
  | none => .err (LocationError.mk optionErrSource [])

/-- Embeds `serialize_source`: `serialize_str(&format!("{value:#?}"))`. -/
def serialize_source (value : AnyhowError) : String :=
  debugAlt value

/-- Embeds `deserialize_source`: the visited string is wrapped in a
`DisplayString` and handed to `anyhow!`, so the reconstructed failure is
a single-layer `DisplayString` root. -/
def deserialize_source (s : String) : AnyhowError :=
  .displayString s

/-- The wire record of a serialized `LocationError`:
`\x7b source: string, backtrace: [\x7b file, line, col \x7d, ...] \x7d`. -/
structure EncodedRecord where
  source : String
  backtrace : List Location
deriving DecidableEq

/-- Serializing a `LocationError`: `source` through `serialize_source`,
`backtrace` through the derived (lossless) `Location` serialization. -/
def encode (e : LocationError) : EncodedRecord :=
  EncodedRecord.mk (serialize_source e.source) e.backtrace

/-- Deserializing a record: `source` through `deserialize_source`,
`backtrace` through the derived (lossless) `Location` deserialization. -/
def decode (r : EncodedRecord) : LocationError :=
  LocationError.mk (deserialize_source r.source) r.backtrace

/-- Embeds the derived `Debug` of `LocationError` (non-alternate), as
printed by `"{:?}"`: the struct name and the two fields, `source` with
`anyhow`'s Debug and `backtrace` as a bracketed comma-separated list of
rendered locations. -/
def LocationError.debugFmt (e : LocationError) : String :=
  "LocationError \x7b source: " ++ debugNonAlt e.source ++ ", backtrace: [" ++
    joinSep ", " (e.backtrace.map Location.render) ++ "] \x7d"

/-- Embeds `Display` of `LocationError`, which delegates to `Debug`. -/
def LocationError.displayFmt (e : LocationError) : String :=
  e.debugFmt

/-- Embeds iterated propagation: `add_location` once per caller location,
in order. -/
def appendFrames (e : LocationError) (callers : List Location) : LocationError :=
  callers.foldl LocationError.add_location e

/-- The text `x` occurs contiguously inside `s`. -/
def SegOf (x s : List Char) : Prop :=
  ∃ l r, s = l ++ (x ++ r)

/-- The given texts all occur in `s`, disjointly and in order. -/
inductive ChainIn : List (List Char) → List Char → Prop
  | nil (s : List Char) : ChainIn [] s
  | cons (x : List Char) (xs : List (List Char)) (pre rest : List Char) :
      ChainIn xs rest → ChainIn (x :: xs) (pre ++ (x ++ rest))

/-- Folding `add_location` appends the caller locations, in order, at the
end of the backtrace. -/
theorem appendFrames_backtrace (callers : List Location) (e : LocationError) :
    (appendFrames e callers).backtrace = e.backtrace ++ callers := by
  induction callers generalizing e with
  | nil => simp [appendFrames]
  | cons c cs ih =>
    show (appendFrames (e.add_location c) cs).backtrace = _
    rw [ih]
    simp [LocationError.add_location]

/-- C1: for every envelope `e`, the source string of
`encode(decode(encode(e)))` equals the source string of `encode(e)`,
while `decode(encode(e))` is in general not structurally equal to `e`. -/
theorem encode_source_fixed_point_after_one_decode :
    (∀ e : LocationError, (encode (decode (encode e))).source = (encode e).source) ∧
    (∃ e : LocationError, decode (encode e) ≠ e) := by
  refine ⟨fun e => rfl, ⟨LocationError.mk (.typed "boom" "boom" []) [], ?_⟩⟩
  decide

/-- C2: creating an envelope and appending a frame `n` times yields a
backtrace of length `1 + n` holding the call sites in call order; each
append only adds one entry at the end (so existing entries are never
reordered or removed), and `AddLocation::loc` on the `Err` branch is
exactly one such append. -/
theorem create_append_backtrace_growth :
    (∀ (src : AnyhowError) (c0 : Location) (callers : List Location),
      (appendFrames (LocationError.new src c0) callers).backtrace = c0 :: callers ∧
      (appendFrames (LocationError.new src c0) callers).backtrace.length
        = 1 + callers.length) ∧
    (∀ (e : LocationError) (c : Location),
      (e.add_location c).backtrace = e.backtrace ++ [c]) ∧
    (∀ (T : Type) (e : LocationError) (c : Location),
      @AddLocation.loc T (.err e) c = .err (e.add_location c)) := by
  refine ⟨fun src c0 callers => ?_, fun e c => rfl, fun T e c => rfl⟩
  rw [appendFrames_backtrace]
  exact ⟨rfl, by simp [LocationError.new, Nat.add_comm]⟩

/-- C3: decoding reconstructs the backtrace losslessly (same locations,
same order) and reconstructs the source as a single `DisplayString`
layer whose Debug and Display texts both equal the encoded source string
exactly. -/
theorem decode_lossless_backtrace_single_layer_source :
    ∀ r : EncodedRecord,
      (decode r).backtrace = r.backtrace ∧
      (decode r).source = AnyhowError.displayString r.source ∧
      debugAlt (decode r).source = r.source ∧
      displayText (decode r).source = r.source :=
  fun _ => ⟨rfl, rfl, rfl, rfl⟩

/-- C4: creating an envelope from any failure value always succeeds and
captures exactly one location, the call site, as the whole backtrace;
`ToLocation::loc` on the `Err` branch is exactly this creation, and the
`Ok` branch passes through. -/
theorem create_captures_single_call_site :
    (∀ (src : AnyhowError) (c : Location),
      (LocationError.new src c).backtrace = [c] ∧ (LocationError.new src c).source = src) ∧
    (∀ (T : Type) (e : AnyhowError) (c : Location),
      @ToLocation.resultLoc T (.err e) c = .err (LocationError.new e c)) ∧
    (∀ (T : Type) (v : T) (c : Location),
      @ToLocation.resultLoc T (.ok v) c = .ok v) :=
  ⟨fun _ _ => ⟨rfl, rfl⟩, fun _ _ _ => rfl, fun _ _ _ => rfl⟩

/-- C5: converting `None` via the capturing conversion yields an
envelope whose source message is exactly "Option was None" with a
one-entry backtrace; the silent conversion yields the same source with
an empty backtrace. -/
theorem option_none_capture_paths :
    ∀ (T : Type) (c : Location),
      @ToLocation.optionLoc T none c = .err (LocationError.mk optionErrSource [c]) ∧
      @ToLocation.optionNoLoc T none = .err (LocationError.mk optionErrSource []) ∧
      displayText optionErrSource = "Option was None" ∧
      (LocationError.mk optionErrSource [c]).backtrace.length = 1 ∧
      (LocationError.mk optionErrSource []).backtrace.length = 0 :=
  fun _ _ => ⟨rfl, rfl, rfl, rfl, rfl⟩

/-- C6: adding a context layer leaves the backtrace unchanged, wraps the
source in exactly one more layer which becomes the outermost
(first-displayed) one, and never fails; the `Err`-branch trait method is
exactly this operation and the `Ok` branch passes through. -/
theorem context_layers_without_backtrace_change :
    (∀ (e : LocationError) (ctx : String),
      (e.context ctx).backtrace = e.backtrace ∧
      (e.context ctx).source = .withContext ctx e.source ∧
      chainDisplays (e.context ctx).source = ctx :: chainDisplays e.source ∧
      displayText (e.context ctx).source = ctx) ∧
    (∀ (T : Type) (e : LocationError) (ctx : String),
      @AddLocation.context T (.err e) ctx = .err (e.context ctx)) ∧
    (∀ (T : Type) (v : T) (ctx : String),
      @AddLocation.context T (.ok v) ctx = .ok v) :=
  ⟨fun _ _ => ⟨rfl, rfl, rfl, rfl⟩, fun _ _ _ => rfl, fun _ _ _ => rfl⟩

/-- C10: appending a frame returns an envelope with the same source
failure value, modifying only the backtrace (by one appended entry). -/
theorem add_location_keeps_source :
    (∀ (e : LocationError) (c : Location), (e.add_location c).source = e.source) ∧
    (∀ (T : Type) (e : LocationError) (c : Location),
      @AddLocation.loc T (.err e) c = .err (e.add_location c) ∧
      (e.add_location c).source = e.source ∧
      (e.add_location c).backtrace = e.backtrace ++ [c]) :=
  ⟨fun _ _ => rfl, fun _ _ _ => ⟨rfl, rfl, rfl⟩⟩

/-- Characterisation of `Ordering.then` returning `lt`. -/
theorem then_eq_lt (o p : Ordering) :
    o.then p = .lt ↔ (o = .lt ∨ (o = .eq ∧ p = .lt)) := by
  cases o <;> simp [Ordering.then]

/-- Characterisation of `Ordering.then` returning `eq`. -/
theorem then_eq_eq (o p : Ordering) :
    o.then p = .eq ↔ (o = .eq ∧ p = .eq) := by
  cases o <;> simp [Ordering.then]

/-- Swapping distributes over `Ordering.then`. -/
theorem then_swap (o p : Ordering) :
    (o.then p).swap = (o.swap).then (p.swap) := by
  cases o <;> rfl

/-- natCmp returns `lt` exactly on smaller first argument. -/
theorem natCmp_lt_iff (a b : Nat) : natCmp a b = .lt ↔ a < b := by
  unfold natCmp
  split
  · rename_i h; simp [h]
  · split
    · simp; omega
    · simp; omega

/-- natCmp returns `gt` exactly on larger first argument. -/
theorem natCmp_gt_iff (a b : Nat) : natCmp a b = .gt ↔ b < a := by
  unfold natCmp
  split
  · simp; omega
  · split
    · rename_i h2; simp [h2]
    · simp; omega

/-- natCmp returns `eq` exactly on equal arguments. -/
theorem natCmp_eq_iff (a b : Nat) : natCmp a b = .eq ↔ a = b := by
  unfold natCmp
  split
  · simp; omega
  · split
    · simp; omega
    · simp; omega

/-- natCmp is antisymmetric under swap. -/
theorem natCmp_swap (a b : Nat) : (natCmp a b).swap = natCmp b a := by
  cases h : natCmp a b with
  | lt =>
    have := (natCmp_lt_iff a b).mp h
    have h2 : natCmp b a = .gt := (natCmp_gt_iff b a).mpr this
    simp [h2, Ordering.swap]
  | eq =>
    have := (natCmp_eq_iff a b).mp h
    have h2 : natCmp b a = .eq := (natCmp_eq_iff b a).mpr this.symm
    simp [h2, Ordering.swap]
  | gt =>
    have := (natCmp_gt_iff a b).mp h
    have h2 : natCmp b a = .lt := (natCmp_lt_iff b a).mpr this
    simp [h2, Ordering.swap]

/-- charCmp returns `eq` exactly on equal characters. -/
theorem charCmp_eq_iff (a b : Char) : charCmp a b = .eq ↔ a = b := by
  unfold charCmp
  rw [natCmp_eq_iff]
  exact ⟨fun h => Char.ext (UInt32.ext h), fun h => by rw [h]⟩

/-- charCmp `lt` is transitive. -/
theorem charCmp_lt_trans {a b c : Char} (h1 : charCmp a b = .lt)
    (h2 : charCmp b c = .lt) : charCmp a c = .lt := by
  unfold charCmp at h1 h2 ⊢
  rw [natCmp_lt_iff] at h1 h2 ⊢
  exact Nat.lt_trans h1 h2

/-- charCmp is antisymmetric under swap. -/
theorem charCmp_swap (a b : Char) : (charCmp a b).swap = charCmp b a :=
  natCmp_swap a.toNat b.toNat

/-- charsCmp returns `eq` exactly on equal lists. -/
theorem charsCmp_eq_iff : ∀ as bs : List Char, charsCmp as bs = .eq ↔ as = bs := by
  intro as
  induction as with
  | nil => intro bs; cases bs <;> simp [charsCmp]
  | cons a as' ih =>
    intro bs
    cases bs with
    | nil => simp [charsCmp]
    | cons b bs' =>
      rw [charsCmp, then_eq_eq, charCmp_eq_iff, ih]
      simp

/-- charsCmp `lt` is transitive. -/
theorem charsCmp_lt_trans : ∀ as bs cs : List Char,
    charsCmp as bs = .lt → charsCmp bs cs = .lt → charsCmp as cs = .lt := by
  intro as
  induction as with
  | nil =>
    intro bs cs h1 h2
    cases bs with
    | nil => simp [charsCmp] at h1
    | cons b bs' =>
      cases cs with
      | nil => simp [charsCmp] at h2
      | cons c cs' => simp [charsCmp]
  | cons a as' ih =>
    intro bs cs h1 h2
    cases bs with
    | nil => simp [charsCmp] at h1
    | cons b bs' =>
      cases cs with
      | nil => simp [charsCmp] at h2
      | cons c cs' =>
        rw [charsCmp, then_eq_lt] at h1 h2 ⊢
        rcases h1 with h1 | ⟨h1e, h1r⟩ <;> rcases h2 with h2 | ⟨h2e, h2r⟩
        · exact Or.inl (charCmp_lt_trans h1 h2)
        · have hbc : b = c := (charCmp_eq_iff b c).mp h2e
          subst hbc
          exact Or.inl h1
        · have hab : a = b := (charCmp_eq_iff a b).mp h1e
          subst hab
          exact Or.inl h2
        · have hab : a = b := (charCmp_eq_iff a b).mp h1e
          subst hab
          exact Or.inr ⟨h2e, ih _ _ h1r h2r⟩

/-- charsCmp is antisymmetric under swap. -/
theorem charsCmp_swap : ∀ as bs : List Char, (charsCmp as bs).swap = charsCmp bs as := by
  intro as
  induction as with
  | nil => intro bs; cases bs <;> rfl
  | cons a as' ih =>
    intro bs
    cases bs with
    | nil => rfl
    | cons b bs' =>
      show ((charCmp a b).then (charsCmp as' bs')).swap = _
      rw [then_swap, charCmp_swap, ih]
      rfl

/-- strCmp returns `eq` exactly on equal strings. -/
theorem strCmp_eq_iff (a b : String) : strCmp a b = .eq ↔ a = b := by
  cases a; cases b
  unfold strCmp
  rw [charsCmp_eq_iff]
  constructor
  · intro h; exact congrArg String.mk h
  · intro h; rw [h]

/-- Location comparison agrees with the stated lexicographic order. -/
theorem location_cmp_lt_iff (a b : Location) :
    Location.cmp a b = .lt ↔ Location.lexLt a b := by
  unfold Location.cmp Location.lexLt
  simp only [then_eq_lt, strCmp_eq_iff, natCmp_eq_iff, natCmp_lt_iff]

/-- Location comparison returns `eq` exactly on equal locations. -/
theorem location_cmp_eq_iff (a b : Location) :
    Location.cmp a b = .eq ↔ a = b := by
  unfold Location.cmp
  simp only [then_eq_eq, strCmp_eq_iff, natCmp_eq_iff]
  cases a; cases b
  simp

/-- The lexicographic order on locations is transitive. -/
theorem location_lexLt_trans {a b c : Location} (h1 : Location.lexLt a b)
    (h2 : Location.lexLt b c) : Location.lexLt a c := by
  unfold Location.lexLt at h1 h2 ⊢
  rcases h1 with h1 | ⟨hf1, h1⟩
  · rcases h2 with h2 | ⟨hf2, h2⟩
    · exact Or.inl (charsCmp_lt_trans _ _ _ h1 h2)
    · exact Or.inl (by rw [← hf2]; exact h1)
  · rcases h2 with h2 | ⟨hf2, h2⟩
    · exact Or.inl (by rw [hf1]; exact h2)
    · exact Or.inr ⟨hf1.trans hf2, by omega⟩

/-- Location comparison is antisymmetric under swap. -/
theorem location_cmp_swap (a b : Location) :
    (Location.cmp a b).swap = Location.cmp b a := by
  unfold Location.cmp
  rw [then_swap, then_swap, natCmp_swap, natCmp_swap]
  show ((strCmp a.file b.file).swap).then _ = _
  have : (strCmp a.file b.file).swap = strCmp b.file a.file := charsCmp_swap _ _
  rw [this]

/-- C9: `Location` is totally ordered lexicographically by
(file, line, column) — the comparison decides equality exactly on
field-wise equal values (so equality, and any hashing over the fields,
follows the same three fields), agrees with the lexicographic strict
order, is transitive and antisymmetric under swap — and the concrete
chain `a.txt:1:1 < a.txt:1:2 < a.txt:2:1 < b.txt:0:0` holds. -/
theorem location_lexicographic_total_order :
    (∀ a b : Location, Location.cmp a b = .eq ↔ a = b) ∧
    (∀ a b : Location, Location.cmp a b = .lt ↔ Location.lexLt a b) ∧
    (∀ a b c : Location,
      Location.cmp a b = .lt → Location.cmp b c = .lt → Location.cmp a c = .lt) ∧
    (∀ a b : Location, (Location.cmp a b).swap = Location.cmp b a) ∧
    (Location.cmp (Location.mk "a.txt" 1 1) (Location.mk "a.txt" 1 2) = .lt ∧
      Location.cmp (Location.mk "a.txt" 1 2) (Location.mk "a.txt" 2 1) = .lt ∧
      Location.cmp (Location.mk "a.txt" 2 1) (Location.mk "b.txt" 0 0) = .lt) := by
  refine ⟨location_cmp_eq_iff, location_cmp_lt_iff, ?_, location_cmp_swap,
    by decide, by decide, by decide⟩
  intro a b c h1 h2
  rw [location_cmp_lt_iff] at h1 h2 ⊢
  exact location_lexLt_trans h1 h2

/-- Witness for C9: transitivity applied at the concrete example chain,
with both hypotheses evaluated. -/
theorem location_lexicographic_total_order_witness :
    Location.cmp (Location.mk "a.txt" 1 1) (Location.mk "a.txt" 2 1) = .lt :=
  location_lexicographic_total_order.2.2.1 (Location.mk "a.txt" 1 1)
    (Location.mk "a.txt" 1 2) (Location.mk "a.txt" 2 1) (by decide) (by decide)

/-- Appending strings concatenates their character data. -/
theorem sdata_append (a b : String) : (a ++ b).data = a.data ++ b.data := by
  cases a; cases b; rfl

/-- The escaping of a single character never emits a newline. -/
theorem newline_not_mem_escapeDebugChar (c : Char) : '\n' ∉ escapeDebugChar c := by
  unfold escapeDebugChar
  split
  · decide
  · split
    · decide
    · split
      · decide
      · split
        · decide
        · split
          · decide
          · rename_i h1 h2 h3 h4 h5
            simp only [List.mem_singleton]
            exact fun hh => h3 hh.symm

/-- Escaped text is newline-free. -/
theorem noNL_escapeDebug (s : String) : noNL (escapeDebug s) := by
  intro hmem
  rw [show (escapeDebug s).data = s.data.flatMap escapeDebugChar from rfl,
    List.mem_flatMap] at hmem
  obtain ⟨c, _, hc⟩ := hmem
  exact newline_not_mem_escapeDebugChar c hc

/-- Unfolding of the pad adapter on a leading character. -/
theorem padContChars_cons (c : Char) (rest : List Char) :
    padContChars (c :: rest) =
      if c = '\n' then
        (if rest = [] then ['\n']
          else '\n' :: ' ' :: ' ' :: ' ' :: ' ' :: padContChars rest)
      else c :: padContChars rest := by
  rfl

/-- The pad adapter acts as the identity on a newline-free leading
segment. -/
theorem padContChars_append_noNL (x r : List Char) (hx : '\n' ∉ x) :
    padContChars (x ++ r) = x ++ padContChars r := by
  induction x with
  | nil => rfl
  | cons c cs ih =>
    have hc : ¬(c = '\n') := fun h => hx (List.mem_cons.mpr (Or.inl h.symm))
    have hx' : '\n' ∉ cs := fun h => hx (List.mem_cons_of_mem _ h)
    show padContChars (c :: (cs ++ r)) = _
    rw [padContChars_cons, if_neg hc, ih hx']
    rfl

/-- A text occurs in itself. -/
theorem segOf_refl (x : List Char) : SegOf x x :=
  ⟨[], [], by simp⟩

/-- An occurrence inside `t` is an occurrence inside anything equal to
`a ++ (t ++ b)`. -/
theorem segOf_in_middle {x t : List Char} (h : SegOf x t) (a b : List Char)
    {s : List Char} (hs : s = a ++ (t ++ b)) : SegOf x s := by
  obtain ⟨l, r, rfl⟩ := h
  exact ⟨a ++ l, r ++ b, by rw [hs]; simp [List.append_assoc]⟩

/-- The pad adapter preserves occurrences of newline-free texts. -/
theorem segOf_padContChars (x s : List Char) (hx : '\n' ∉ x) (h : SegOf x s) :
    SegOf x (padContChars s) := by
  by_cases hxe : x = []
  · exact ⟨padContChars s, [], by simp [hxe]⟩
  obtain ⟨l, r, rfl⟩ := h
  induction l with
  | nil =>
    rw [List.nil_append, padContChars_append_noNL x r hx]
    exact ⟨[], padContChars r, rfl⟩
  | cons c l' ih =>
    rw [List.cons_append, padContChars_cons]
    by_cases hc : c = '\n'
    · rw [if_pos hc]
      have ht : ¬(l' ++ (x ++ r) = []) := by
        intro he
        rcases List.append_eq_nil.mp he with ⟨_, h2⟩
        rcases List.append_eq_nil.mp h2 with ⟨h3, _⟩
        exact hxe h3
      rw [if_neg ht]
      obtain ⟨a, b, hab⟩ := ih
      exact ⟨'\n' :: ' ' :: ' ' :: ' ' :: ' ' :: a, b, by rw [hab]; simp⟩
    · rw [if_neg hc]
      obtain ⟨a, b, hab⟩ := ih
      exact ⟨c :: a, b, by rw [hab]; simp⟩

/-- Serialization retains each context layer (escaped) and, when it is
newline-free, the root cause's Debug text, as contiguous segments. -/
theorem serialize_retains_aux (e : AnyhowError) :
    (∀ m, m ∈ contextMsgs e → SegOf (escapeDebug m).data (debugAlt e).data) ∧
    (noNL (rootDbg e) → SegOf (rootDbg e).data (debugAlt e).data) := by
  induction e with
  | typed d disp causes =>
    refine ⟨fun m hm => ?_, fun _ => segOf_refl _⟩
    simp [contextMsgs] at hm
  | displayString s =>
    refine ⟨fun m hm => ?_, fun _ => segOf_refl _⟩
    simp [contextMsgs] at hm
  | withContext msg inner ih =>
    constructor
    · intro m hm
      rcases List.mem_cons.mp hm with rfl | hm'
      · have h0 : SegOf (escapeDebug m).data
            ("context: \"" ++ escapeDebug m ++ "\",\n").data :=
          ⟨"context: \"".data, "\",\n".data, by simp [sdata_append]⟩
        have h1 := segOf_padContChars _ _ (noNL_escapeDebug m) h0
        refine segOf_in_middle h1 ("Error \x7b\n".data ++ [' ', ' ', ' ', ' '])
          ((padFld ("source: " ++ debugAlt inner ++ ",\n")).data ++ "\x7d".data) ?_
        show (debugAlt (.withContext m inner)).data = _
        simp [debugAlt, padFld, sdata_append]
      · have h0 : SegOf (escapeDebug m).data (debugAlt inner).data := ih.1 m hm'
        have h1 : SegOf (escapeDebug m).data
            ("source: " ++ debugAlt inner ++ ",\n").data :=
          segOf_in_middle h0 "source: ".data ",\n".data (by simp [sdata_append])
        have h2 := segOf_padContChars _ _ (noNL_escapeDebug m) h1
        refine segOf_in_middle h2
          ("Error \x7b\n".data ++
            ((padFld ("context: \"" ++ escapeDebug msg ++ "\",\n")).data ++
              [' ', ' ', ' ', ' ']))
          ("\x7d".data) ?_
        show (debugAlt (.withContext msg inner)).data = _
        simp [debugAlt, padFld, sdata_append]
    · intro hroot
      have hroot' : noNL (rootDbg inner) := hroot
      have h0 : SegOf (rootDbg inner).data (debugAlt inner).data := ih.2 hroot'
      have h1 : SegOf (rootDbg inner).data
          ("source: " ++ debugAlt inner ++ ",\n").data :=
        segOf_in_middle h0 "source: ".data ",\n".data (by simp [sdata_append])
      have h2 := segOf_padContChars _ _ hroot' h1
      refine segOf_in_middle h2
        ("Error \x7b\n".data ++
          ((padFld ("context: \"" ++ escapeDebug msg ++ "\",\n")).data ++
            [' ', ' ', ' ', ' ']))
        ("\x7d".data) ?_
      show (debugAlt (.withContext msg inner)).data = _
      simp [debugAlt, padFld, sdata_append]

/-- C7: encoding produces the source field by rendering the full
context-and-cause chain into one string (`serialize_source`); the
encoded string retains the escaped text of every context layer as a
contiguous segment, and likewise the root cause's rendered text (stated
for newline-free root text, which the indentation keeps contiguous);
type information and chain structure are not part of the record. -/
theorem encode_renders_full_chain (e : LocationError) :
    (encode e).source = serialize_source e.source ∧
    (∀ m, m ∈ contextMsgs e.source →
      SegOf (escapeDebug m).data ((encode e).source).data) ∧
    (noNL (rootDbg e.source) →
      SegOf (rootDbg e.source).data ((encode e).source).data) :=
  ⟨rfl, (serialize_retains_aux e.source).1, (serialize_retains_aux e.source).2⟩

/-- A concrete two-layer failure used to evaluate the C7 theorem. -/
def sampleErr : AnyhowError :=
  .withContext "while saving" (.withContext "db write"
    (.typed "\"disk full\"" "disk full" []))

/-- A concrete envelope around `sampleErr`. -/
def sampleEnvelope : LocationError :=
  LocationError.mk sampleErr [Location.mk "a.rs" 3 7]

/-- Witness for C7: the theorem applied to a concrete envelope, with the
membership and newline-freeness hypotheses evaluated. -/
theorem encode_renders_full_chain_witness :
    ("db write" ∈ contextMsgs sampleEnvelope.source ∧
      noNL (rootDbg sampleEnvelope.source)) ∧
    (SegOf (escapeDebug "db write").data ((encode sampleEnvelope).source).data ∧
      SegOf (rootDbg sampleEnvelope.source).data ((encode sampleEnvelope).source).data) :=
  ⟨⟨by decide, by decide⟩,
    (encode_renders_full_chain sampleEnvelope).2.1 "db write" (by decide),
    (encode_renders_full_chain sampleEnvelope).2.2 (by decide)⟩

/-- A chain of occurrences is preserved by prepending text. -/
theorem chainIn_prepend (xs : List (List Char)) (a s : List Char)
    (h : ChainIn xs s) : ChainIn xs (a ++ s) := by
  cases h with
  | nil => exact .nil _
  | cons x xs pre rest h' =>
    rw [← List.append_assoc]
    exact .cons x xs (a ++ pre) rest h'

/-- A chain of occurrences is preserved by appending text. -/
theorem chainIn_postpend (xs : List (List Char)) (s b : List Char)
    (h : ChainIn xs s) : ChainIn xs (s ++ b) := by
  induction h with
  | nil => exact .nil _
  | cons x xs pre rest h' ih =>
    have he : (pre ++ (x ++ rest)) ++ b = pre ++ (x ++ (rest ++ b)) := by
      simp [List.append_assoc]
    rw [he]
    exact .cons x xs pre (rest ++ b) ih

/-- Chains over adjacent texts concatenate. -/
theorem chainIn_concat {xs ys : List (List Char)} {s t : List Char}
    (hx : ChainIn xs s) (hy : ChainIn ys t) : ChainIn (xs ++ ys) (s ++ t) := by
  induction hx with
  | nil => exact chainIn_prepend _ _ _ hy
  | cons x xs pre rest h' ih =>
    have he : (pre ++ (x ++ rest)) ++ t = pre ++ (x ++ (rest ++ t)) := by
      simp [List.append_assoc]
    rw [he]
    exact .cons x (xs ++ ys) pre (rest ++ t) ih

/-- The elements joined by a separator occur in order in the result. -/
theorem chainIn_joinSep (sep : String) : ∀ xs : List String,
    ChainIn (xs.map String.data) (joinSep sep xs).data := by
  intro xs
  induction xs with
  | nil => exact .nil _
  | cons x xs ih =>
    cases xs with
    | nil =>
      have h := ChainIn.cons x.data [] [] [] (.nil [])
      simpa using h
    | cons y ys =>
      show ChainIn (x.data :: (y :: ys).map String.data)
        ((x ++ sep ++ joinSep sep (y :: ys)).data)
      rw [sdata_append, sdata_append, List.append_assoc]
      exact ChainIn.cons x.data ((y :: ys).map String.data) []
        (sep.data ++ (joinSep sep (y :: ys)).data)
        (chainIn_prepend _ sep.data _ ih)

/-- Unfolding of the newline splitter on a leading character. -/
theorem splitNL_cons (c : Char) (rest : List Char) :
    splitNL (c :: rest) =
      if c = '\n' then [] :: splitNL rest
      else match splitNL rest with
        | [] => [[c]]
        | l :: ls => (c :: l) :: ls := by
  rfl

/-- Splitting a newline-free text yields just that text. -/
theorem splitNL_noNL (s : List Char) (h : '\n' ∉ s) : splitNL s = [s] := by
  induction s with
  | nil => rfl
  | cons c cs ih =>
    have hc : ¬(c = '\n') := fun hh => h (List.mem_cons.mpr (Or.inl hh.symm))
    have h' : '\n' ∉ cs := fun hh => h (List.mem_cons_of_mem _ hh)
    rw [splitNL_cons, if_neg hc, ih h']

/-- The indented writer puts only a pad in front of a newline-free text. -/
theorem indentedRender_noNL (num : Option Nat) (s : String) (h : noNL s) :
    indentedRender num s = firstLinePad num ++ s := by
  unfold indentedRender
  rw [splitNL_noNL s.data h]
  rfl

/-- The cause texts occur in order in the rendered cause list. -/
theorem chainIn_causeEntries (multiple : Bool) : ∀ (t : List String) (n : Nat),
    (∀ m ∈ t, noNL m) →
    ChainIn (t.map String.data) (causeEntries multiple n t).data := by
  intro t
  induction t with
  | nil => intro n _; exact .nil _
  | cons m rest ih =>
    intro n h
    have hm : noNL m := h m (List.mem_cons_self _ _)
    have hrest : ∀ x ∈ rest, noNL x := fun x hx => h x (List.mem_cons_of_mem _ hx)
    show ChainIn (m.data :: rest.map String.data)
      (("\n" ++ indentedRender (if multiple then some n else none) m
        ++ causeEntries multiple (n + 1) rest).data)
    rw [indentedRender_noNL _ _ hm, sdata_append, sdata_append, sdata_append]
    have he : (("\n".data ++ ((firstLinePad (if multiple then some n else none)).data
          ++ m.data)) ++ (causeEntries multiple (n + 1) rest).data)
        = ("\n".data ++ (firstLinePad (if multiple then some n else none)).data)
          ++ (m.data ++ (causeEntries multiple (n + 1) rest).data) := by
      simp [List.append_assoc]
    rw [he]
    exact .cons m.data (rest.map String.data) _ _ (ih (n + 1) hrest)

/-- The display chain of an embedded failure is never empty. -/
theorem chainDisplays_ne_nil (e : AnyhowError) : chainDisplays e ≠ [] := by
  cases e <;> simp [chainDisplays]

/-- The chain's Display texts occur in order, outermost first, in the
non-alternate Debug rendering. -/
theorem chainIn_debugNonAlt (e : AnyhowError)
    (h : ∀ m ∈ chainDisplays e, noNL m) :
    ChainIn ((chainDisplays e).map String.data) (debugNonAlt e).data := by
  unfold debugNonAlt
  cases hc : chainDisplays e with
  | nil => exact absurd hc (chainDisplays_ne_nil e)
  | cons hd t =>
    rw [hc] at h
    show ChainIn ((hd :: t).map String.data)
      ((hd ++ "\n" ++ (if t = [] then ""
        else "\nCaused by:" ++ causeEntries (multipleCauses t) 0 t)).data)
    rw [sdata_append, sdata_append, List.append_assoc]
    refine ChainIn.cons hd.data (t.map String.data) [] _ ?_
    by_cases ht : t = []
    · subst ht; exact .nil _
    · rw [if_neg ht, sdata_append, ← List.append_assoc]
      exact chainIn_prepend _ _ _
        (chainIn_causeEntries (multipleCauses t) t 0
          (fun m hm => h m (List.mem_cons_of_mem _ hm)))

/-- C8: displaying an envelope equals debugging it, and the rendering
contains, in order and disjointly, the full context chain of the source
(outermost layer first, down to the root cause) followed by the
backtrace locations rendered as `file:line:column`, in chain order with
the creation site first (stated for newline-free chain texts, which the
cause indentation keeps contiguous). -/
theorem display_renders_chain_then_backtrace (e : LocationError)
    (h : ∀ m ∈ chainDisplays e.source, noNL m) :
    e.displayFmt = e.debugFmt ∧
    ChainIn ((chainDisplays e.source).map String.data
        ++ (e.backtrace.map fun l => (Location.render l).data))
      e.debugFmt.data := by
  refine ⟨rfl, ?_⟩
  have h1 := chainIn_debugNonAlt e.source h
  have h2 := chainIn_joinSep ", " (e.backtrace.map Location.render)
  rw [List.map_map] at h2
  show ChainIn _
    (("LocationError \x7b source: " ++ debugNonAlt e.source ++ ", backtrace: ["
      ++ joinSep ", " (e.backtrace.map Location.render) ++ "] \x7d").data)
  rw [sdata_append, sdata_append, sdata_append, sdata_append]
  simp only [List.append_assoc]
  exact chainIn_prepend _ _ _
    (chainIn_concat h1 (chainIn_prepend _ _ _ (chainIn_postpend _ _ _ h2)))

/-- Witness for C8: the theorem applied to a concrete envelope, with the
newline-freeness hypothesis evaluated. -/
theorem display_renders_chain_then_backtrace_witness :
    (∀ m ∈ chainDisplays sampleEnvelope.source, noNL m) ∧
    (sampleEnvelope.displayFmt = sampleEnvelope.debugFmt ∧
      ChainIn ((chainDisplays sampleEnvelope.source).map String.data
          ++ (sampleEnvelope.backtrace.map fun l => (Location.render l).data))
        sampleEnvelope.debugFmt.data) :=
  ⟨by decide, display_renders_chain_then_backtrace sampleEnvelope (by decide)⟩

end LocErr
